import Mathlib

/-!
Gearsystem front ends: host adapter (libretro) and render thread (Qt).

A shallow embedding of `platforms/libretro/libretro.cpp` and
`platforms/qt-shared/RenderThread.cpp`.

The emulator core (`GearsystemCore`, `Emulator`) and the host callbacks are
outside these two files.  The core is a record of handlers over an arbitrary
core state; the host is a record of the answers it gives during one call of an
entry point.  Every call the adapter makes on the core or on the host is logged,
in program order, in a list of `Call`s, so that "is called", "is called once"
and "is called before" are statements about that list.
-/

namespace Gearsystem

/-! ## Host adapter: data model -/

/-- Keys of a pad, the `GS_Keys` values used by `update_input`. -/
inductive GS_Keys where
  | Key_Up
  | Key_Down
  | Key_Left
  | Key_Right
  | Key_1
  | Key_2
  | Key_Start
  deriving DecidableEq, Repr

/-- Region reported in `GS_RuntimeInfo`. -/
inductive GS_Region where
  | Region_NTSC
  | Region_PAL
  deriving DecidableEq, Repr

/-- The record filled by `GetRuntimeInfo`; the two sizes are C `int`s. -/
structure GS_RuntimeInfo where
  screen_width : Int
  screen_height : Int
  region : GS_Region
  deriving DecidableEq, Repr

/-- Button ids `RETRO_DEVICE_ID_JOYPAD_*` that `update_input` queries. -/
inductive RetroJoypadId where
  | JOYPAD_UP
  | JOYPAD_DOWN
  | JOYPAD_LEFT
  | JOYPAD_RIGHT
  | JOYPAD_B
  | JOYPAD_A
  | JOYPAD_START
  deriving DecidableEq, Repr

/-- Environment commands `RETRO_ENVIRONMENT_*` whose boolean answer the adapter
receives in `retro_run`, `check_variables` and `retro_load_game`.
`SET_GEOMETRY`, whose answer is discarded and which carries data, is the
separate call `Call.set_geometry`. -/
inductive RetroEnvironment where
  | GET_VARIABLE_UPDATE
  | GET_VARIABLE
  | SET_INPUT_DESCRIPTORS
  | SET_PIXEL_FORMAT
  | SET_SUPPORT_ACHIEVEMENTS
  deriving DecidableEq, Repr

/-- What the host answers during one call of an entry point.

* `environ_cb cmd` is the boolean returned by `environ_cb(cmd, ...)`; each
  command is issued at most once per entry point, so one answer per command
  loses nothing.
* `variable_updated` is the value of `updated` after the `GET_VARIABLE_UPDATE`
  call (it starts as `false`).
* `variable_value` is `var.value` after the `GET_VARIABLE` call (it starts as
  `NULL`, here `none`).
* `input_state_cb port id` is the `int16_t` returned by
  `input_state_cb(port, RETRO_DEVICE_JOYPAD, 0, id)`, the state latched by
  `input_poll_cb`. -/
structure Host where
  environ_cb : RetroEnvironment → Bool
  variable_updated : Bool
  variable_value : Option String
  input_state_cb : Nat → RetroJoypadId → Int

/-- The part of `GearsystemCore` the adapter calls, over a core state `σ`.
Its implementation is outside the two files, so every handler is a parameter.
`RunToVBlank` receives and returns the two buffers it writes and the sample
count behind `int* pSampleCount`; `LoadROMFromBuffer`, `SaveState` and
`LoadState` return the success flag of the core. -/
structure GearsystemCore (σ : Type) where
  KeyPressed : Nat → GS_Keys → σ → σ
  KeyReleased : Nat → GS_Keys → σ → σ
  RunToVBlank : σ → List Nat → List Int → Int → σ × List Nat × List Int × Int
  GetRuntimeInfo : σ → GS_RuntimeInfo
  LoadROMFromBuffer : List Nat → Nat → σ → σ × Bool
  SaveState : σ → Nat → Bool
  LoadState : List Nat → Nat → σ → σ × Bool

/-- A call made by the adapter, on the core or on a host callback.  The
arguments are the values the source passes, before the conversion to the
parameter types declared in `libretro.h`. -/
inductive Call where
  | input_poll
  | KeyPressed (player : Nat) (key : GS_Keys)
  | KeyReleased (player : Nat) (key : GS_Keys)
  | RunToVBlank
  | LoadROMFromBuffer (size : Nat)
  | environ (cmd : RetroEnvironment)
  | set_geometry (base_width base_height max_width max_height : Int)
  | video (data : List Nat) (width height pitch : Int)
  | audio_batch (data : List Int) (frames : Int)
  | log (msg : String)
  deriving DecidableEq, Repr

/-- The file-scope variables of `libretro.cpp` together with the core. -/
structure Libretro (σ : Type) where
  core : σ
  frame_buf : List Nat
  audio_buf : List Int
  audio_sample_count : Int
  current_screen_width : Int
  current_screen_height : Int
  allow_up_down : Bool
  retro_game_path : List Nat

/-- The fields of `retro_game_info` that `retro_load_game` reads. -/
structure retro_game_info where
  path : List Nat
  data : List Nat
  size : Nat

/-- Size in bytes of `GS_Color`, four one-byte channels. -/
def sizeof_GS_Color : Int := 4

/-! ## Host adapter: operations -/

/-- C truth value of the `int16_t` answer of `input_state_cb`. -/
def pressed (host : Host) (player : Nat) (id : RetroJoypadId) : Bool :=
  decide (host.input_state_cb player id ≠ 0)

/-- One direction block of `update_input`: pressed and not suppressed gives
`KeyPressed`, pressed and suppressed gives nothing, not pressed gives
`KeyReleased`. -/
def direction_input (host : Host) (allow_up_down : Bool) (player : Nat)
    (id opposite : RetroJoypadId) (key : GS_Keys) : List Call :=
  if pressed host player id then
    (if allow_up_down || !pressed host player opposite then [Call.KeyPressed player key] else [])
  else
    [Call.KeyReleased player key]

/-- One button block of `update_input`. -/
def button_input (host : Host) (player : Nat) (id : RetroJoypadId) (key : GS_Keys) :
    List Call :=
  if pressed host player id then [Call.KeyPressed player key] else [Call.KeyReleased player key]

/-- Body of the `for` loop of `update_input` for one player. -/
def player_input (host : Host) (allow_up_down : Bool) (player : Nat) : List Call :=
  direction_input host allow_up_down player .JOYPAD_UP .JOYPAD_DOWN .Key_Up
    ++ direction_input host allow_up_down player .JOYPAD_DOWN .JOYPAD_UP .Key_Down
    ++ direction_input host allow_up_down player .JOYPAD_LEFT .JOYPAD_RIGHT .Key_Left
    ++ direction_input host allow_up_down player .JOYPAD_RIGHT .JOYPAD_LEFT .Key_Right
    ++ button_input host player .JOYPAD_B .Key_1
    ++ button_input host player .JOYPAD_A .Key_2
    ++ button_input host player .JOYPAD_START .Key_Start

/-- The calls `update_input` makes, in order: the poll, then players 0 and 1. -/
def update_input_calls (host : Host) (allow_up_down : Bool) : List Call :=
  Call.input_poll :: (player_input host allow_up_down 0 ++ player_input host allow_up_down 1)

/-- Effect of one logged call on the core state; only the key calls act here. -/
def applyCall {σ : Type} (core : GearsystemCore σ) (s : σ) : Call → σ
  | .KeyPressed p k => core.KeyPressed p k s
  | .KeyReleased p k => core.KeyReleased p k s
  | _ => s

/-- Effect of a sequence of calls on the core state, first call first. -/
def applyCalls {σ : Type} (core : GearsystemCore σ) (s : σ) (calls : List Call) : σ :=
  calls.foldl (applyCall core) s

/-- `update_input`: the core state after the key calls, and the calls. -/
def update_input {σ : Type} (core : GearsystemCore σ) (host : Host) (allow_up_down : Bool)
    (s : σ) : σ × List Call :=
  (applyCalls core s (update_input_calls host allow_up_down), update_input_calls host allow_up_down)

/-- `check_variables`: the new value of `allow_up_down`. -/
def check_variables (host : Host) (allow_up_down : Bool) : Bool :=
  if host.environ_cb .GET_VARIABLE && host.variable_value.isSome then
    decide (host.variable_value = some "Enabled")
  else
    allow_up_down

/-- First statement of `retro_run`: the value of `allow_up_down` after the
variable-update query, and the environment calls made. -/
def run_variables (host : Host) (allow_up_down : Bool) : Bool × List Call :=
  if host.environ_cb .GET_VARIABLE_UPDATE && host.variable_updated then
    (check_variables host allow_up_down,
      [Call.environ .GET_VARIABLE_UPDATE, Call.environ .GET_VARIABLE])
  else
    (allow_up_down, [Call.environ .GET_VARIABLE_UPDATE])

/-- The core step of `retro_run`: `update_input` followed by `RunToVBlank` on
the core state it leaves.  Components: core state, frame buffer, audio buffer,
sample count. -/
def run_step {σ : Type} (core : GearsystemCore σ) (host : Host) (s : Libretro σ) :
    σ × List Nat × List Int × Int :=
  core.RunToVBlank (update_input core host (run_variables host s.allow_up_down).1 s.core).1
    s.frame_buf s.audio_buf s.audio_sample_count

/-- The runtime info `retro_run` reads after the step. -/
def reported_info {σ : Type} (core : GearsystemCore σ) (host : Host) (s : Libretro σ) :
    GS_RuntimeInfo :=
  core.GetRuntimeInfo (run_step core host s).1

/-- The condition of the resolution check of `retro_run`. -/
def resolution_changed (info : GS_RuntimeInfo)
    (current_screen_width current_screen_height : Int) : Bool :=
  decide (info.screen_width ≠ current_screen_width)
    || decide (info.screen_height ≠ current_screen_height)

/-- The resolution check of `retro_run`: the geometry call, if any. -/
def geometry_update (info : GS_RuntimeInfo) (current_screen_width current_screen_height : Int) :
    List Call :=
  if resolution_changed info current_screen_width current_screen_height then
    [Call.set_geometry info.screen_width info.screen_height info.screen_width info.screen_height]
  else
    []

/-- The audio delivery of `retro_run`: C `int` division truncates. -/
def audio_delivery (audio_buf : List Int) (audio_sample_count : Int) : List Call :=
  if audio_sample_count > 0 then
    [Call.audio_batch audio_buf (Int.tdiv audio_sample_count 2)]
  else
    []

/-- `retro_run`: the state on return and the calls made, in order. -/
def retro_run {σ : Type} (core : GearsystemCore σ) (host : Host) (s : Libretro σ) :
    Libretro σ × List Call :=
  let vars := run_variables host s.allow_up_down
  let inp := update_input core host vars.1 s.core
  let stepped := run_step core host s
  let runtime_info := reported_info core host s
  let changed := resolution_changed runtime_info s.current_screen_width s.current_screen_height
  ({ core := stepped.1
     frame_buf := stepped.2.1
     audio_buf := stepped.2.2.1
     audio_sample_count := 0
     current_screen_width :=
       if changed then runtime_info.screen_width else s.current_screen_width
     current_screen_height :=
       if changed then runtime_info.screen_height else s.current_screen_height
     allow_up_down := vars.1
     retro_game_path := s.retro_game_path },
   vars.2 ++ inp.2 ++ [Call.RunToVBlank]
     ++ geometry_update runtime_info s.current_screen_width s.current_screen_height
     ++ [Call.video stepped.2.1 runtime_info.screen_width runtime_info.screen_height
          (runtime_info.screen_width * sizeof_GS_Color)]
     ++ audio_delivery stepped.2.2.1 stepped.2.2.2)

/-- Consecutive calls of `retro_run`, one host answer record per call: the
final state and the concatenated calls. -/
def retro_run_frames {σ : Type} (core : GearsystemCore σ) :
    Libretro σ → List Host → Libretro σ × List Call
  | s, [] => (s, [])
  | s, host :: hosts =>
    ((retro_run_frames core (retro_run core host s).1 hosts).1,
      (retro_run core host s).2 ++ (retro_run_frames core (retro_run core host s).1 hosts).2)

/-- The resolution the core reports in each of consecutive `retro_run` calls. -/
def reported_frames {σ : Type} (core : GearsystemCore σ) :
    Libretro σ → List Host → List (Int × Int)
  | _, [] => []
  | s, host :: hosts =>
    ((reported_info core host s).screen_width, (reported_info core host s).screen_height)
      :: reported_frames core (retro_run core host s).1 hosts

/-- Number of positions of a sequence of resolutions that differ from the
resolution just before (`prev` before the first). -/
def transitions (prev : Int × Int) : List (Int × Int) → Nat
  | [] => 0
  | r :: rs => (if r ≠ prev then 1 else 0) + transitions r rs

/-- `retro_load_game`: the state on return, the calls made, and the result. -/
def retro_load_game {σ : Type} (core : GearsystemCore σ) (host : Host)
    (info : retro_game_info) (s : Libretro σ) : Libretro σ × List Call × Bool :=
  let allow := check_variables host s.allow_up_down
  let loaded := core.LoadROMFromBuffer info.data info.size s.core
  let calls := [Call.environ .GET_VARIABLE, Call.LoadROMFromBuffer info.size,
    Call.environ .SET_INPUT_DESCRIPTORS, Call.environ .SET_PIXEL_FORMAT]
  if !host.environ_cb .SET_PIXEL_FORMAT then
    ({ s with core := loaded.1, allow_up_down := allow },
      calls ++ [Call.log "XRGB8888 is not supported.\n"], false)
  else
    ({ s with core := loaded.1, allow_up_down := allow, retro_game_path := info.path.take 4095 },
      calls ++ [Call.environ .SET_SUPPORT_ACHIEVEMENTS], true)

/-- `retro_serialize`: the result of the core is the result. -/
def retro_serialize {σ : Type} (core : GearsystemCore σ) (size : Nat) (s : Libretro σ) : Bool :=
  core.SaveState s.core size

/-- `retro_unserialize`: the result of the core is the result. -/
def retro_unserialize {σ : Type} (core : GearsystemCore σ) (data : List Nat) (size : Nat)
    (s : Libretro σ) : Libretro σ × Bool :=
  ({ s with core := (core.LoadState data size s.core).1 }, (core.LoadState data size s.core).2)

/-- Geometry notifications among the logged calls. -/
def Call.isGeometry : Call → Bool
  | .set_geometry _ _ _ _ => true
  | _ => false

/-- Video sink calls among the logged calls. -/
def Call.isVideo : Call → Bool
  | .video _ _ _ _ => true
  | _ => false

/-- Audio sink calls among the logged calls. -/
def Call.isAudio : Call → Bool
  | .audio_batch _ _ => true
  | _ => false

/-- Calls of the input stage: the poll and the key calls. -/
def Call.isInput : Call → Bool
  | .input_poll => true
  | .KeyPressed _ _ => true
  | .KeyReleased _ _ => true
  | _ => false

/-- Calls that present a frame: geometry notifications and video sink calls. -/
def Call.isPresentation (c : Call) : Bool :=
  c.isGeometry || c.isVideo

/-- The two opposing pairs of directions with the keys `update_input` maps them to. -/
def opposing : List ((RetroJoypadId × GS_Keys) × (RetroJoypadId × GS_Keys)) :=
  [((.JOYPAD_UP, .Key_Up), (.JOYPAD_DOWN, .Key_Down)),
   ((.JOYPAD_LEFT, .Key_Left), (.JOYPAD_RIGHT, .Key_Right))]

/-- The four directions with the keys `update_input` maps them to. -/
def directions : List (RetroJoypadId × GS_Keys) :=
  [(.JOYPAD_UP, .Key_Up), (.JOYPAD_DOWN, .Key_Down),
   (.JOYPAD_LEFT, .Key_Left), (.JOYPAD_RIGHT, .Key_Right)]

/-! ## Render thread: data model and loop -/

/-- Calls made by `RenderThread::run`, in the order the source makes them.
`Init` stands for the call of `RenderThread::Init`, `SafeDeleteArray` for the
release of `m_pFrameBuffer`, `glDeleteTextures n` for the release of `n`
textures of `m_GBTexture`. -/
inductive RenderCall where
  | makeCurrent
  | Init
  | timer_restart
  | msleep (ms : Nat)
  | RunToVBlank
  | RenderFrame
  | usleep (us : Int)
  | swapBuffers
  | SafeDeleteArray
  | glDeleteTextures (n : Nat)
  deriving DecidableEq, Repr

/-- Program points of `RenderThread::run` at which the thread reads something
other threads or the outside can change.

* `entry`: before the first statement;
* `loopCond`: at `while (m_bDoRendering)`;
* `visibleCheck`: at `if (...->isVisible())`;
* `pausedCheck`: at `if (m_bPaused)`;
* `sleeping`: before `msleep(200)`;
* `stepping`: before `RunToVBlank` and `RenderFrame`;
* `pacing`: at `if (!m_pEmulator->IsAudioEnabled())`, up to `swapBuffers`;
* `finished`: after `glDeleteTextures`. -/
inductive Location where
  | entry
  | loopCond
  | visibleCheck
  | pausedCheck
  | sleeping
  | stepping
  | pacing
  | finished
  deriving DecidableEq, Repr

/-- The two flags of `RenderThread` that `Stop`, `Pause` and `Resume` write,
and the program point of the thread running `run`. -/
structure RenderThread where
  pc : Location
  m_bPaused : Bool
  m_bDoRendering : Bool
  deriving DecidableEq, Repr

/-- What the thread reads from outside when it advances: the visibility of
the window, `IsAudioEnabled()` and `m_Timer.nsecsElapsed()` (a `qint64`). -/
structure Observation where
  isVisible : Bool
  IsAudioEnabled : Bool
  nsecsElapsed : Int
  deriving DecidableEq, Repr

/-- One atomic action on the object: a call of `Stop`, `Pause` or `Resume` from
another thread, or the render thread advancing to its next program point. -/
inductive Action where
  | Stop
  | Pause
  | Resume
  | advance (obs : Observation)
  deriving DecidableEq, Repr

/-- The object as the constructor leaves it, `run` not yet started. -/
def RenderThread.init : RenderThread :=
  { pc := .entry, m_bPaused := false, m_bDoRendering := true }

/-- The pacing block of the loop body, from the audio check to `swapBuffers`;
`qint64` division truncates. -/
def pacing (audioEnabled : Bool) (elapsed : Int) : List RenderCall :=
  (if !audioEnabled then
    (if elapsed < 16000000 then [RenderCall.usleep (Int.tdiv (16000000 - elapsed) 1000)]
      else [])
      ++ [RenderCall.timer_restart]
  else [])
    ++ [RenderCall.swapBuffers]

/-- The render thread advancing from one program point to the next. -/
def advance (t : RenderThread) (obs : Observation) : RenderThread × List RenderCall :=
  match t.pc with
  | .entry =>
    ({ t with pc := .loopCond },
      [RenderCall.makeCurrent, RenderCall.Init, RenderCall.timer_restart])
  | .loopCond =>
    if t.m_bDoRendering then ({ t with pc := .visibleCheck }, [])
    else ({ t with pc := .finished }, [RenderCall.SafeDeleteArray, RenderCall.glDeleteTextures 3])
  | .visibleCheck =>
    if obs.isVisible then ({ t with pc := .pausedCheck }, [RenderCall.makeCurrent])
    else ({ t with pc := .loopCond }, [])
  | .pausedCheck =>
    if t.m_bPaused then ({ t with pc := .sleeping }, [])
    else ({ t with pc := .stepping }, [])
  | .sleeping => ({ t with pc := .pacing }, [RenderCall.msleep 200])
  | .stepping => ({ t with pc := .pacing }, [RenderCall.RunToVBlank, RenderCall.RenderFrame])
  | .pacing => ({ t with pc := .loopCond }, pacing obs.IsAudioEnabled obs.nsecsElapsed)
  | .finished => (t, [])

/-- `RenderThread::Stop`. -/
def RenderThread.Stop (t : RenderThread) : RenderThread :=
  { t with m_bDoRendering := false }

/-- `RenderThread::Pause`. -/
def RenderThread.Pause (t : RenderThread) : RenderThread :=
  { t with m_bPaused := true }

/-- `RenderThread::Resume`. -/
def RenderThread.Resume (t : RenderThread) : RenderThread :=
  { t with m_bPaused := false }

/-- One action: `Stop`, `Pause`, `Resume` write their flag and make no call; the
thread advances. -/
def step (t : RenderThread) : Action → RenderThread × List RenderCall
  | .Stop => (t.Stop, [])
  | .Pause => (t.Pause, [])
  | .Resume => (t.Resume, [])
  | .advance obs => advance t obs

/-- `RenderThread::run` under a sequence of actions, first action first: the
final state and the calls made by the thread. -/
def RenderThread.run : RenderThread → List Action → RenderThread × List RenderCall
  | t, [] => (t, [])
  | t, a :: acts =>
    ((RenderThread.run (step t a).1 acts).1,
      (step t a).2 ++ (RenderThread.run (step t a).1 acts).2)

/-- Program points outside the visible branch of the loop body. -/
def Location.outsideBody : Location → Bool
  | .entry => true
  | .loopCond => true
  | .visibleCheck => true
  | .finished => true
  | _ => false

/-- Actions in which the render thread advances. -/
def Action.isAdvance : Action → Bool
  | .advance _ => true
  | _ => false

/-- The release calls at the end of `run`. -/
def RenderCall.isRelease : RenderCall → Bool
  | .SafeDeleteArray => true
  | .glDeleteTextures _ => true
  | _ => false

/-- The calls of the pacing block. -/
def RenderCall.isPacing : RenderCall → Bool
  | .usleep _ => true
  | .timer_restart => true
  | .swapBuffers => true
  | _ => false

/-- Number of thread advances after which `run` has returned once
`m_bDoRendering` is false, from each program point. -/
def Location.remaining : Location → Nat
  | .entry => 2
  | .loopCond => 1
  | .visibleCheck => 5
  | .pausedCheck => 4
  | .sleeping => 3
  | .stepping => 3
  | .pacing => 2
  | .finished => 0

/-- Stepping calls still possible once `m_bDoRendering` is false: one inside
the body before the stepping call, none elsewhere. -/
def Location.stepsLeft : Location → Nat
  | .visibleCheck => 1
  | .pausedCheck => 1
  | .stepping => 1
  | _ => 0

/-- Buffer swaps still possible once `m_bDoRendering` is false: one inside the
body, none elsewhere. -/
def Location.swapsLeft : Location → Nat
  | .visibleCheck => 1
  | .pausedCheck => 1
  | .sleeping => 1
  | .stepping => 1
  | .pacing => 1
  | _ => 0

/-! ## Sample core and hosts, used to instantiate the theorems -/

/-- State of the sample core: the keys it holds and its runtime info. -/
structure SampleState where
  held : Nat → GS_Keys → Bool
  info : GS_RuntimeInfo

/-- A small core: key calls set and clear the named key, a step switches to
256x192 and leaves four samples, an empty ROM or state is rejected. -/
def sampleCore : GearsystemCore SampleState where
  KeyPressed p k s := { s with held := fun q j => if q = p ∧ j = k then true else s.held q j }
  KeyReleased p k s := { s with held := fun q j => if q = p ∧ j = k then false else s.held q j }
  RunToVBlank s fb ab _ :=
    ({ s with info := { s.info with screen_width := 256, screen_height := 192 } }, fb, ab, 4)
  GetRuntimeInfo s := s.info
  LoadROMFromBuffer _ size s := (s, decide (size ≠ 0))
  SaveState _ size := decide (size ≠ 0)
  LoadState _ size s := (s, decide (size ≠ 0))

/-- The adapter before the first frame, with a 160x144 resolution stored. -/
def sampleLibretro : Libretro SampleState where
  core :=
    { held := fun _ _ => false
      info := { screen_width := 160, screen_height := 144, region := .Region_NTSC } }
  frame_buf := []
  audio_buf := []
  audio_sample_count := 0
  current_screen_width := 160
  current_screen_height := 144
  allow_up_down := false
  retro_game_path := []

/-- A host that accepts every environment call, reports no variable change and
reports every button of every port pressed. -/
def sampleHost : Host where
  environ_cb _ := true
  variable_updated := false
  variable_value := none
  input_state_cb _ _ := 1

/-- A host that reports only up pressed, on port 0: an ordinary poll, with no
opposing pair pressed. -/
def upOnlyHost : Host where
  environ_cb _ := true
  variable_updated := false
  variable_value := none
  input_state_cb port id := if port = 0 ∧ id = .JOYPAD_UP then 1 else 0

/-- A game info with an empty ROM. -/
def emptyGame : retro_game_info where
  path := []
  data := []
  size := 0

/-- An observation with the window hidden. -/
def hiddenObs : Observation :=
  { isVisible := false, IsAudioEnabled := false, nsecsElapsed := 0 }

/-- An observation with the window visible, audio disabled and 6000500 ns
elapsed on the timer. -/
def shownObs : Observation :=
  { isVisible := true, IsAudioEnabled := false, nsecsElapsed := 6000500 }

/-- The render thread at the pause check of a running loop. -/
def sampleThread : RenderThread :=
  { pc := .pausedCheck, m_bPaused := false, m_bDoRendering := true }

/-! ## Host adapter: lemmas on the calls of `update_input` -/

theorem mem_direction_input_pressed (host : Host) (allow : Bool) (q : Nat)
    (id opp : RetroJoypadId) (key : GS_Keys) (p : Nat) (k : GS_Keys) :
    Call.KeyPressed p k ∈ direction_input host allow q id opp key ↔
      p = q ∧ k = key ∧ pressed host q id = true ∧
        (allow = true ∨ pressed host q opp = false) := by
  unfold direction_input
  split_ifs <;> simp_all

theorem mem_direction_input_released (host : Host) (allow : Bool) (q : Nat)
    (id opp : RetroJoypadId) (key : GS_Keys) (p : Nat) (k : GS_Keys) :
    Call.KeyReleased p k ∈ direction_input host allow q id opp key ↔
      p = q ∧ k = key ∧ pressed host q id = false := by
  unfold direction_input
  split_ifs <;> simp_all

theorem mem_button_input_pressed (host : Host) (q : Nat) (id : RetroJoypadId) (key : GS_Keys)
    (p : Nat) (k : GS_Keys) :
    Call.KeyPressed p k ∈ button_input host q id key ↔
      p = q ∧ k = key ∧ pressed host q id = true := by
  unfold button_input
  split_ifs <;> simp_all

theorem mem_button_input_released (host : Host) (q : Nat) (id : RetroJoypadId) (key : GS_Keys)
    (p : Nat) (k : GS_Keys) :
    Call.KeyReleased p k ∈ button_input host q id key ↔
      p = q ∧ k = key ∧ pressed host q id = false := by
  unfold button_input
  split_ifs <;> simp_all

/-- Calls that do not name key `k` of player `p` leave what the core holds for
that key unchanged, for any core whose key handlers touch only the key they
are given. -/
theorem applyCalls_frame {σ : Type} (core : GearsystemCore σ) (held : σ → Nat → GS_Keys → Bool)
    (hP : ∀ (q : Nat) (j : GS_Keys) (p : Nat) (k : GS_Keys) (s : σ),
      (q ≠ p ∨ j ≠ k) → held (core.KeyPressed q j s) p k = held s p k)
    (hR : ∀ (q : Nat) (j : GS_Keys) (p : Nat) (k : GS_Keys) (s : σ),
      (q ≠ p ∨ j ≠ k) → held (core.KeyReleased q j s) p k = held s p k)
    (p : Nat) (k : GS_Keys) (calls : List Call) :
    ∀ s : σ, Call.KeyPressed p k ∉ calls → Call.KeyReleased p k ∉ calls →
      held (applyCalls core s calls) p k = held s p k := by
  induction calls with
  | nil => intro s _ _; rfl
  | cons c cs ih =>
    intro s h1 h2
    simp only [List.mem_cons, not_or] at h1 h2
    have hstep : held (applyCall core s c) p k = held s p k := by
      cases c with
      | KeyPressed q j =>
        have hne : q ≠ p ∨ j ≠ k := by
          by_contra hcon
          push_neg at hcon
          exact h1.1 (by rw [hcon.1, hcon.2])
        exact hP q j p k s hne
      | KeyReleased q j =>
        have hne : q ≠ p ∨ j ≠ k := by
          by_contra hcon
          push_neg at hcon
          exact h2.1 (by rw [hcon.1, hcon.2])
        exact hR q j p k s hne
      | _ => rfl
    have := ih (applyCall core s c) h1.2 h2.2
    simpa [applyCalls, hstep] using this

/-- C1. With `allow_up_down` disabled, for every player and either opposing
pair (up/down, left/right): when the host reports both directions of the pair
pressed, `update_input` calls `KeyPressed` for neither of the two directions
of that player. -/
theorem update_input_opposing_suppressed {σ : Type} (core : GearsystemCore σ) (host : Host)
    (s : σ) (player : Nat)
    (pr : (RetroJoypadId × GS_Keys) × (RetroJoypadId × GS_Keys)) (hpr : pr ∈ opposing)
    (hfst : host.input_state_cb player pr.1.1 ≠ 0)
    (hsnd : host.input_state_cb player pr.2.1 ≠ 0) :
    Call.KeyPressed player pr.1.2 ∉ (update_input core host false s).2 ∧
      Call.KeyPressed player pr.2.2 ∉ (update_input core host false s).2 := by
  simp only [opposing, List.mem_cons, List.mem_singleton, List.not_mem_nil, or_false] at hpr
  rcases hpr with rfl | rfl <;>
    simp_all [update_input, update_input_calls, player_input, mem_direction_input_pressed,
      mem_button_input_pressed, pressed] <;>
    refine ⟨⟨?_, ?_⟩, ⟨?_, ?_⟩⟩ <;> rintro rfl <;> intro _ <;> assumption

/-- C2. With `allow_up_down` enabled, for player 0 or 1 and either opposing
pair (up/down, left/right): when the host reports both directions of the pair
pressed, `update_input` calls `KeyPressed` for both directions of that player. -/
theorem update_input_opposing_allowed {σ : Type} (core : GearsystemCore σ) (host : Host)
    (s : σ) (player : Nat) (hplayer : player < 2)
    (pr : (RetroJoypadId × GS_Keys) × (RetroJoypadId × GS_Keys)) (hpr : pr ∈ opposing)
    (hfst : host.input_state_cb player pr.1.1 ≠ 0)
    (hsnd : host.input_state_cb player pr.2.1 ≠ 0) :
    Call.KeyPressed player pr.1.2 ∈ (update_input core host true s).2 ∧
      Call.KeyPressed player pr.2.2 ∈ (update_input core host true s).2 := by
  simp only [opposing, List.mem_cons, List.mem_singleton, List.not_mem_nil, or_false] at hpr
  have hp : player = 0 ∨ player = 1 := by omega
  rcases hp with rfl | rfl <;> rcases hpr with rfl | rfl <;>
    simp_all [update_input, update_input_calls, player_input, mem_direction_input_pressed,
      mem_button_input_pressed, pressed]

/-- C10. For player 0 or 1, any host, any option value and any core state:
(1) for every core whose key handlers change only the key they are given, and
either opposing pair whose two directions the host reports pressed, with
`allow_up_down` disabled `update_input` calls neither `KeyPressed` nor
`KeyReleased` for those two directions, what the core holds for both keys
after the poll is what it held before, and a held direction stays held;
(2) in general, with no condition on what else is pressed, `KeyReleased` is
called for a direction exactly when the host reports that direction not
pressed. -/
theorem update_input_opposing_keeps_state {σ : Type} (core : GearsystemCore σ)
    (host : Host) (allow : Bool) (s : σ) (player : Nat) (hplayer : player < 2) :
    (∀ held : σ → Nat → GS_Keys → Bool,
      (∀ (q : Nat) (j : GS_Keys) (p : Nat) (k : GS_Keys) (s : σ),
        (q ≠ p ∨ j ≠ k) → held (core.KeyPressed q j s) p k = held s p k) →
      (∀ (q : Nat) (j : GS_Keys) (p : Nat) (k : GS_Keys) (s : σ),
        (q ≠ p ∨ j ≠ k) → held (core.KeyReleased q j s) p k = held s p k) →
      ∀ pr ∈ opposing,
        host.input_state_cb player pr.1.1 ≠ 0 → host.input_state_cb player pr.2.1 ≠ 0 →
        (Call.KeyPressed player pr.1.2 ∉ (update_input core host false s).2 ∧
          Call.KeyReleased player pr.1.2 ∉ (update_input core host false s).2 ∧
          Call.KeyPressed player pr.2.2 ∉ (update_input core host false s).2 ∧
          Call.KeyReleased player pr.2.2 ∉ (update_input core host false s).2) ∧
        (held (update_input core host false s).1 player pr.1.2 = held s player pr.1.2 ∧
          held (update_input core host false s).1 player pr.2.2 = held s player pr.2.2) ∧
        (held s player pr.1.2 = true →
          held (update_input core host false s).1 player pr.1.2 = true) ∧
        (held s player pr.2.2 = true →
          held (update_input core host false s).1 player pr.2.2 = true)) ∧
    (∀ d ∈ directions,
      (Call.KeyReleased player d.2 ∈ (update_input core host allow s).2 ↔
        host.input_state_cb player d.1 = 0)) := by
  refine ⟨?_, ?_⟩
  · intro held hP hR pr hpr hfst hsnd
    have hcalls : Call.KeyPressed player pr.1.2 ∉ (update_input core host false s).2 ∧
        Call.KeyReleased player pr.1.2 ∉ (update_input core host false s).2 ∧
        Call.KeyPressed player pr.2.2 ∉ (update_input core host false s).2 ∧
        Call.KeyReleased player pr.2.2 ∉ (update_input core host false s).2 := by
      simp only [opposing, List.mem_cons, List.mem_singleton, List.not_mem_nil, or_false] at hpr
      rcases hpr with rfl | rfl <;>
        simp_all [update_input, update_input_calls, player_input, mem_direction_input_pressed,
          mem_button_input_pressed, mem_direction_input_released, mem_button_input_released,
          pressed] <;>
        refine ⟨⟨?_, ?_⟩, ⟨?_, ?_⟩, ⟨?_, ?_⟩, ⟨?_, ?_⟩⟩ <;> rintro rfl <;>
        first
          | assumption
          | (intro _; assumption)
    have h1 : held (update_input core host false s).1 player pr.1.2 = held s player pr.1.2 :=
      applyCalls_frame core held hP hR player pr.1.2 _ s hcalls.1 hcalls.2.1
    have h2 : held (update_input core host false s).1 player pr.2.2 = held s player pr.2.2 :=
      applyCalls_frame core held hP hR player pr.2.2 _ s hcalls.2.2.1 hcalls.2.2.2
    exact ⟨hcalls, ⟨h1, h2⟩, fun h => by rw [h1]; exact h, fun h => by rw [h2]; exact h⟩
  · intro d hd
    simp only [directions, List.mem_cons, List.mem_singleton, List.not_mem_nil, or_false] at hd
    have hp : player = 0 ∨ player = 1 := by omega
    rcases hp with rfl | rfl <;> rcases hd with rfl | rfl | rfl | rfl <;>
      simp [update_input, update_input_calls, player_input, mem_direction_input_released,
        mem_button_input_released, pressed]

/-! ## Host adapter: `retro_run` -/

theorem direction_input_isInput (host : Host) (allow : Bool) (q : Nat)
    (id opp : RetroJoypadId) (key : GS_Keys) :
    ∀ c ∈ direction_input host allow q id opp key, c.isInput = true := by
  unfold direction_input
  split_ifs <;> simp [Call.isInput]

theorem button_input_isInput (host : Host) (q : Nat) (id : RetroJoypadId) (key : GS_Keys) :
    ∀ c ∈ button_input host q id key, c.isInput = true := by
  unfold button_input
  split_ifs <;> simp [Call.isInput]

theorem update_input_calls_isInput (host : Host) (allow : Bool) :
    ∀ c ∈ update_input_calls host allow, c.isInput = true := by
  intro c hc
  simp only [update_input_calls, player_input, List.mem_cons, List.mem_append] at hc
  rcases hc with rfl | hc
  · rfl
  · rcases hc with hc | hc <;>
      rcases hc with (((((hc | hc) | hc) | hc) | hc) | hc) | hc <;>
      first
        | exact direction_input_isInput _ _ _ _ _ _ c hc
        | exact button_input_isInput _ _ _ _ c hc

/-- A filter that rejects the input-stage calls rejects all of `update_input`. -/
theorem update_input_calls_filter (host : Host) (allow : Bool) (f : Call → Bool)
    (hf : ∀ c : Call, c.isInput = true → f c = false) :
    (update_input_calls host allow).filter f = [] := by
  rw [List.filter_eq_nil_iff]
  intro c hc
  simp [hf c (update_input_calls_isInput host allow c hc)]

theorem run_variables_filter (host : Host) (allow : Bool) (f : Call → Bool)
    (hf : ∀ cmd : RetroEnvironment, f (Call.environ cmd) = false) :
    (run_variables host allow).2.filter f = [] := by
  unfold run_variables
  split_ifs <;> simp [hf]

theorem audio_delivery_filter (buf : List Int) (n : Int) (f : Call → Bool)
    (hf : ∀ (b : List Int) (m : Int), f (Call.audio_batch b m) = false) :
    (audio_delivery buf n).filter f = [] := by
  unfold audio_delivery
  split_ifs <;> simp [hf]

theorem geometry_update_filter (info : GS_RuntimeInfo) (w h : Int) (f : Call → Bool)
    (hf : ∀ a b c d : Int, f (Call.set_geometry a b c d) = false) :
    (geometry_update info w h).filter f = [] := by
  unfold geometry_update
  split_ifs <;> simp [hf]

/-- The presentation calls of one `retro_run`: the geometry call, if any, then
the video call. -/
theorem retro_run_presentation {σ : Type} (core : GearsystemCore σ) (host : Host)
    (s : Libretro σ) :
    (retro_run core host s).2.filter Call.isPresentation =
      geometry_update (reported_info core host s) s.current_screen_width s.current_screen_height
        ++ [Call.video (run_step core host s).2.1 (reported_info core host s).screen_width
              (reported_info core host s).screen_height
              ((reported_info core host s).screen_width * sizeof_GS_Color)] := by
  have h1 := run_variables_filter host s.allow_up_down Call.isPresentation (fun _ => rfl)
  have h2 := update_input_calls_filter host (run_variables host s.allow_up_down).1
    Call.isPresentation (fun c hc => by cases c <;> simp_all [Call.isInput, Call.isPresentation,
      Call.isGeometry, Call.isVideo])
  have h3 := audio_delivery_filter (run_step core host s).2.2.1 (run_step core host s).2.2.2
    Call.isPresentation (fun _ _ => rfl)
  have h4 : (geometry_update (reported_info core host s) s.current_screen_width
      s.current_screen_height).filter Call.isPresentation
      = geometry_update (reported_info core host s) s.current_screen_width
          s.current_screen_height := by
    unfold geometry_update
    split_ifs <;> simp [Call.isPresentation, Call.isGeometry]
  simp [retro_run, update_input, List.filter_append, h1, h2, h3, h4, Call.isPresentation,
    Call.isGeometry, Call.isVideo]

/-- The geometry calls of one `retro_run`. -/
theorem retro_run_geometry_calls {σ : Type} (core : GearsystemCore σ) (host : Host)
    (s : Libretro σ) :
    (retro_run core host s).2.filter Call.isGeometry =
      geometry_update (reported_info core host s) s.current_screen_width
        s.current_screen_height := by
  have h1 := run_variables_filter host s.allow_up_down Call.isGeometry (fun _ => rfl)
  have h2 := update_input_calls_filter host (run_variables host s.allow_up_down).1
    Call.isGeometry (fun c hc => by cases c <;> simp_all [Call.isInput, Call.isGeometry])
  have h3 := audio_delivery_filter (run_step core host s).2.2.1 (run_step core host s).2.2.2
    Call.isGeometry (fun _ _ => rfl)
  have h4 : (geometry_update (reported_info core host s) s.current_screen_width
      s.current_screen_height).filter Call.isGeometry
      = geometry_update (reported_info core host s) s.current_screen_width
          s.current_screen_height := by
    unfold geometry_update
    split_ifs <;> simp [Call.isGeometry]
  simp [retro_run, update_input, List.filter_append, h1, h2, h3, h4, Call.isGeometry]

/-- The audio calls of one `retro_run`. -/
theorem retro_run_audio_calls {σ : Type} (core : GearsystemCore σ) (host : Host)
    (s : Libretro σ) :
    (retro_run core host s).2.filter Call.isAudio =
      audio_delivery (run_step core host s).2.2.1 (run_step core host s).2.2.2 := by
  have h1 := run_variables_filter host s.allow_up_down Call.isAudio (fun _ => rfl)
  have h2 := update_input_calls_filter host (run_variables host s.allow_up_down).1
    Call.isAudio (fun c hc => by cases c <;> simp_all [Call.isInput, Call.isAudio])
  have h3 := geometry_update_filter (reported_info core host s) s.current_screen_width
    s.current_screen_height Call.isAudio (fun _ _ _ _ => rfl)
  have h4 : (audio_delivery (run_step core host s).2.2.1
      (run_step core host s).2.2.2).filter Call.isAudio
      = audio_delivery (run_step core host s).2.2.1 (run_step core host s).2.2.2 := by
    unfold audio_delivery
    split_ifs <;> simp [Call.isAudio]
  simp [retro_run, update_input, List.filter_append, h1, h2, h3, h4, Call.isAudio]

/-- The stored resolution after `retro_run` is the reported one. -/
theorem retro_run_stored {σ : Type} (core : GearsystemCore σ) (host : Host) (s : Libretro σ) :
    (retro_run core host s).1.current_screen_width = (reported_info core host s).screen_width ∧
    (retro_run core host s).1.current_screen_height
      = (reported_info core host s).screen_height := by
  simp only [retro_run, resolution_changed]
  by_cases hw : (reported_info core host s).screen_width = s.current_screen_width <;>
    by_cases hh : (reported_info core host s).screen_height = s.current_screen_height <;>
    simp [hw, hh]

/-- Over consecutive `retro_run` calls, the geometry calls are as many as the
changes in the sequence of reported resolutions, starting from the stored one. -/
theorem retro_run_frames_geometry {σ : Type} (core : GearsystemCore σ) (hosts : List Host) :
    ∀ s : Libretro σ,
      ((retro_run_frames core s hosts).2.filter Call.isGeometry).length =
        transitions (s.current_screen_width, s.current_screen_height)
          (reported_frames core s hosts) := by
  induction hosts with
  | nil => intro s; rfl
  | cons host hosts ih =>
    intro s
    have hst := retro_run_stored core host s
    have hgeo := retro_run_geometry_calls core host s
    have hrec := ih (retro_run core host s).1
    rw [hst.1, hst.2] at hrec
    simp only [retro_run_frames, reported_frames, transitions, List.filter_append,
      List.length_append, hgeo, hrec]
    congr 1
    unfold geometry_update resolution_changed
    by_cases hw : (reported_info core host s).screen_width = s.current_screen_width <;>
      by_cases hh : (reported_info core host s).screen_height = s.current_screen_height <;>
      simp [hw, hh, Prod.ext_iff]

/-- C3. In every `retro_run`: if the resolution the core reports after the step
differs from the stored one in width or height, the calls contain exactly one
geometry notification, it carries the reported width and height, and it comes
before the single video call; if the reported resolution equals the stored
one, the video call is made and no geometry notification.  On return the
stored resolution is the reported one, and over any number of consecutive
calls the geometry notifications are as many as the changes of the reported
resolution. -/
theorem retro_run_geometry_notification {σ : Type} (core : GearsystemCore σ) (host : Host)
    (s : Libretro σ) (hosts : List Host) :
    (((reported_info core host s).screen_width ≠ s.current_screen_width ∨
        (reported_info core host s).screen_height ≠ s.current_screen_height) →
      (retro_run core host s).2.filter Call.isPresentation =
        [Call.set_geometry (reported_info core host s).screen_width
            (reported_info core host s).screen_height
            (reported_info core host s).screen_width
            (reported_info core host s).screen_height,
          Call.video (run_step core host s).2.1 (reported_info core host s).screen_width
            (reported_info core host s).screen_height
            ((reported_info core host s).screen_width * sizeof_GS_Color)]) ∧
    (((reported_info core host s).screen_width = s.current_screen_width ∧
        (reported_info core host s).screen_height = s.current_screen_height) →
      (retro_run core host s).2.filter Call.isPresentation =
        [Call.video (run_step core host s).2.1 (reported_info core host s).screen_width
            (reported_info core host s).screen_height
            ((reported_info core host s).screen_width * sizeof_GS_Color)]) ∧
    ((retro_run core host s).1.current_screen_width = (reported_info core host s).screen_width ∧
      (retro_run core host s).1.current_screen_height
        = (reported_info core host s).screen_height) ∧
    ((retro_run_frames core s hosts).2.filter Call.isGeometry).length =
      transitions (s.current_screen_width, s.current_screen_height)
        (reported_frames core s hosts) := by
  refine ⟨?_, ?_, retro_run_stored core host s, retro_run_frames_geometry core hosts s⟩
  · intro hne
    rw [retro_run_presentation]
    have hch : resolution_changed (reported_info core host s) s.current_screen_width
        s.current_screen_height = true := by
      simpa [resolution_changed] using hne
    simp [geometry_update, hch]
  · intro heq
    rw [retro_run_presentation]
    have hch : resolution_changed (reported_info core host s) s.current_screen_width
        s.current_screen_height = false := by
      simp [resolution_changed, heq.1, heq.2]
    simp [geometry_update, hch]

/-- C4. In every `retro_run` whose step leaves a sample count `n ≥ 0`: if `n`
is nonzero the audio sink is called exactly once, with the audio buffer and
`n / 2` sample pairs; if `n` is zero it is not called; in both cases
`audio_sample_count` is 0 on return. -/
theorem retro_run_audio_delivery {σ : Type} (core : GearsystemCore σ) (host : Host) (s : Libretro σ)
    (hn : 0 ≤ (run_step core host s).2.2.2) :
    ((run_step core host s).2.2.2 ≠ 0 →
      (retro_run core host s).2.filter Call.isAudio =
        [Call.audio_batch (run_step core host s).2.2.1 ((run_step core host s).2.2.2 / 2)]) ∧
    ((run_step core host s).2.2.2 = 0 →
      (retro_run core host s).2.filter Call.isAudio = []) ∧
    (retro_run core host s).1.audio_sample_count = 0 := by
  refine ⟨?_, ?_, rfl⟩
  · intro hne
    have hpos : (run_step core host s).2.2.2 > 0 := lt_of_le_of_ne hn (Ne.symm hne)
    rw [retro_run_audio_calls, audio_delivery, if_pos hpos,
      Int.tdiv_eq_ediv hn (by norm_num)]
  · intro hz
    rw [retro_run_audio_calls, audio_delivery, hz]
    simp

/-! ## Host adapter: `retro_load_game` -/

/-- C6. `retro_load_game` returns exactly what the host answers to
`SET_PIXEL_FORMAT`: false when the host refuses the format, whatever it
answers to the other queries, and never false because of another query. -/
theorem retro_load_game_pixel_format {σ : Type} (core : GearsystemCore σ) (host : Host)
    (info : retro_game_info) (s : Libretro σ) :
    (retro_load_game core host info s).2.2 = host.environ_cb .SET_PIXEL_FORMAT := by
  unfold retro_load_game
  cases h : host.environ_cb .SET_PIXEL_FORMAT <;> simp

/-- C5 (evaluation). The sample core rejects the empty ROM, the host accepts the
pixel format, and `retro_load_game` returns true, while `retro_unserialize`
returns the failure the same core reports for an empty state. -/
theorem retro_load_game_ignores_rom_failure :
    (sampleCore.LoadROMFromBuffer emptyGame.data emptyGame.size sampleLibretro.core).2 = false ∧
    (retro_load_game sampleCore sampleHost emptyGame sampleLibretro).2.2 = true ∧
    (retro_unserialize sampleCore [] 0 sampleLibretro).2 = false := by
  refine ⟨rfl, rfl, rfl⟩

/-! ## Host adapter: instances -/

theorem update_input_opposing_suppressed_witness :
    Call.KeyPressed 0 .Key_Up ∉ (update_input sampleCore sampleHost false sampleLibretro.core).2 ∧
    Call.KeyPressed 0 .Key_Down ∉
      (update_input sampleCore sampleHost false sampleLibretro.core).2 :=
  update_input_opposing_suppressed sampleCore sampleHost sampleLibretro.core 0
    ((.JOYPAD_UP, .Key_Up), (.JOYPAD_DOWN, .Key_Down)) (by decide) (by decide) (by decide)

theorem update_input_opposing_allowed_witness :
    Call.KeyPressed 1 .Key_Left ∈ (update_input sampleCore sampleHost true sampleLibretro.core).2 ∧
    Call.KeyPressed 1 .Key_Right ∈
      (update_input sampleCore sampleHost true sampleLibretro.core).2 :=
  update_input_opposing_allowed sampleCore sampleHost sampleLibretro.core 1 (by decide)
    ((.JOYPAD_LEFT, .Key_Left), (.JOYPAD_RIGHT, .Key_Right)) (by decide) (by decide) (by decide)

theorem update_input_opposing_keeps_state_witness :
    ((sampleCore.KeyPressed 0 .Key_Up sampleLibretro.core).held 0 .Key_Up = true ∧
      (update_input sampleCore sampleHost false
        (sampleCore.KeyPressed 0 .Key_Up sampleLibretro.core)).1.held 0 .Key_Up = true ∧
      Call.KeyReleased 0 .Key_Up ∉
        (update_input sampleCore sampleHost false
          (sampleCore.KeyPressed 0 .Key_Up sampleLibretro.core)).2) ∧
    (Call.KeyReleased 0 .Key_Up ∉
        (update_input sampleCore upOnlyHost false sampleLibretro.core).2 ∧
      Call.KeyReleased 0 .Key_Down ∈
        (update_input sampleCore upOnlyHost false sampleLibretro.core).2 ∧
      Call.KeyReleased 1 .Key_Left ∈
        (update_input sampleCore upOnlyHost false sampleLibretro.core).2) := by
  have h := (update_input_opposing_keeps_state sampleCore sampleHost false
    (sampleCore.KeyPressed 0 .Key_Up sampleLibretro.core) 0 (by decide)).1 (fun s => s.held)
    (by
      intro q j p k s hne
      have hpk : ¬ (p = q ∧ k = j) := by
        rintro ⟨rfl, rfl⟩
        simp at hne
      show (if p = q ∧ k = j then true else s.held p k) = s.held p k
      rw [if_neg hpk])
    (by
      intro q j p k s hne
      have hpk : ¬ (p = q ∧ k = j) := by
        rintro ⟨rfl, rfl⟩
        simp at hne
      show (if p = q ∧ k = j then false else s.held p k) = s.held p k
      rw [if_neg hpk])
    ((.JOYPAD_UP, .Key_Up), (.JOYPAD_DOWN, .Key_Down)) (by decide) (by decide) (by decide)
  have g0 := (update_input_opposing_keeps_state sampleCore upOnlyHost false
    sampleLibretro.core 0 (by decide)).2
  have g1 := (update_input_opposing_keeps_state sampleCore upOnlyHost false
    sampleLibretro.core 1 (by decide)).2
  have hheld : (sampleCore.KeyPressed 0 .Key_Up sampleLibretro.core).held 0 .Key_Up = true := by
    simp [sampleCore]
  refine ⟨⟨hheld, h.2.2.1 hheld, h.1.2.1⟩, ?_, ?_, ?_⟩
  · intro hmem
    have hz := (g0 (.JOYPAD_UP, .Key_Up) (by decide)).1 hmem
    simp [upOnlyHost] at hz
  · exact (g0 (.JOYPAD_DOWN, .Key_Down) (by decide)).2 (by decide)
  · exact (g1 (.JOYPAD_LEFT, .Key_Left) (by decide)).2 (by decide)

theorem retro_run_geometry_notification_witness :
    (retro_run sampleCore sampleHost sampleLibretro).2.filter Call.isPresentation =
      [Call.set_geometry 256 192 256 192, Call.video [] 256 192 1024] ∧
    (retro_run sampleCore sampleHost
      (retro_run sampleCore sampleHost sampleLibretro).1).2.filter Call.isPresentation =
      [Call.video [] 256 192 1024] ∧
    ((retro_run_frames sampleCore sampleLibretro [sampleHost, sampleHost]).2.filter
      Call.isGeometry).length = 1 := by
  have h1 := retro_run_geometry_notification sampleCore sampleHost sampleLibretro [sampleHost, sampleHost]
  have h2 := retro_run_geometry_notification sampleCore sampleHost
    (retro_run sampleCore sampleHost sampleLibretro).1 []
  refine ⟨h1.1 (by decide), h2.2.1 (by decide), ?_⟩
  rw [h1.2.2.2]
  decide

theorem retro_run_audio_delivery_witness :
    (retro_run sampleCore sampleHost sampleLibretro).2.filter Call.isAudio =
      [Call.audio_batch [] 2] ∧
    (retro_run sampleCore sampleHost sampleLibretro).1.audio_sample_count = 0 := by
  have h := retro_run_audio_delivery sampleCore sampleHost sampleLibretro (by decide)
  exact ⟨h.1 (by decide), h.2.2⟩

/-! ## Render thread: pacing -/

theorem pacing_filter (audioEnabled : Bool) (elapsed : Int) :
    (pacing audioEnabled elapsed).filter RenderCall.isPacing = pacing audioEnabled elapsed := by
  unfold pacing
  cases audioEnabled <;> by_cases h : elapsed < 16000000 <;> simp [h, RenderCall.isPacing]

/-- The pacing calls of a visible iteration, from the visibility check on, are
those of the pacing block. -/
theorem visible_iteration_pacing (t : RenderThread) (v x y obs : Observation)
    (hpc : t.pc = .visibleCheck) (hv : v.isVisible = true) :
    (RenderThread.run t [.advance v, .advance x, .advance y, .advance obs]).2.filter RenderCall.isPacing =
      pacing obs.IsAudioEnabled obs.nsecsElapsed := by
  have hp := pacing_filter obs.IsAudioEnabled obs.nsecsElapsed
  obtain ⟨pc, paused, rendering⟩ := t
  simp only at hpc
  subst hpc
  cases paused <;>
    simp [RenderThread.run, step, advance, hv, List.filter_append, RenderCall.isPacing, hp]

/-- C9. In a visible iteration (the four advances from the visibility check to
the end of the body), with a measured elapsed time `e ≥ 0` in nanoseconds:
with audio disabled and `e < 16000000` the pacing calls are one `usleep` of
`(16000000 - e) / 1000` microseconds, then the timer restart, then
`swapBuffers`, and `e` plus the sleep is at most 16000000 ns and short of it by
less than 1000 ns; with audio disabled and `e ≥ 16000000` there is no `usleep`,
only the timer restart and `swapBuffers`; with audio enabled there is only
`swapBuffers`. -/
theorem visible_iteration_budget (t : RenderThread) (v x y obs : Observation)
    (hpc : t.pc = .visibleCheck) (hv : v.isVisible = true) (he : 0 ≤ obs.nsecsElapsed) :
    (obs.IsAudioEnabled = false → obs.nsecsElapsed < 16000000 →
      (RenderThread.run t [.advance v, .advance x, .advance y, .advance obs]).2.filter RenderCall.isPacing =
        [RenderCall.usleep ((16000000 - obs.nsecsElapsed) / 1000), RenderCall.timer_restart,
          RenderCall.swapBuffers] ∧
      obs.nsecsElapsed + 1000 * ((16000000 - obs.nsecsElapsed) / 1000) ≤ 16000000 ∧
      16000000 - (obs.nsecsElapsed + 1000 * ((16000000 - obs.nsecsElapsed) / 1000)) < 1000) ∧
    (obs.IsAudioEnabled = false → 16000000 ≤ obs.nsecsElapsed →
      (RenderThread.run t [.advance v, .advance x, .advance y, .advance obs]).2.filter RenderCall.isPacing =
        [RenderCall.timer_restart, RenderCall.swapBuffers]) ∧
    (obs.IsAudioEnabled = true →
      (RenderThread.run t [.advance v, .advance x, .advance y, .advance obs]).2.filter RenderCall.isPacing =
        [RenderCall.swapBuffers]) := by
  rw [visible_iteration_pacing t v x y obs hpc hv]
  refine ⟨?_, ?_, ?_⟩
  · intro ha hlt
    have hnn : 0 ≤ 16000000 - obs.nsecsElapsed := by omega
    refine ⟨?_, ?_, ?_⟩
    · simp [pacing, ha, hlt, Int.tdiv_eq_ediv hnn]
    · omega
    · omega
  · intro ha hge
    have hnlt : ¬ obs.nsecsElapsed < 16000000 := by omega
    simp [pacing, ha, hnlt]
  · intro ha
    simp [pacing, ha]

/-! ## Render thread: invisible surface -/

/-- One action outside the visible branch, observing an invisible surface, stays
outside it and makes none of the calls that produce or present a frame. -/
theorem step_invisible (t : RenderThread) (a : Action) (hpc : t.pc.outsideBody = true)
    (hinv : ∀ obs, a = Action.advance obs → obs.isVisible = false) :
    (step t a).1.pc.outsideBody = true ∧
      RenderCall.RunToVBlank ∉ (step t a).2 ∧ RenderCall.RenderFrame ∉ (step t a).2 ∧
      RenderCall.swapBuffers ∉ (step t a).2 := by
  obtain ⟨pc, paused, rendering⟩ := t
  cases a with
  | advance obs =>
    have hv := hinv obs rfl
    cases pc <;> cases rendering <;>
      simp_all [step, advance, Location.outsideBody]
  | _ => simp_all [step, RenderThread.Stop, RenderThread.Pause, RenderThread.Resume]

theorem exec_invisible (acts : List Action) :
    ∀ t : RenderThread, t.pc.outsideBody = true →
      (∀ obs, Action.advance obs ∈ acts → obs.isVisible = false) →
      RenderCall.RunToVBlank ∉ (RenderThread.run t acts).2 ∧ RenderCall.RenderFrame ∉ (RenderThread.run t acts).2 ∧
        RenderCall.swapBuffers ∉ (RenderThread.run t acts).2 := by
  induction acts with
  | nil => intro t _ _; simp [RenderThread.run]
  | cons a acts ih =>
    intro t hpc hinv
    have hs := step_invisible t a hpc (fun obs h => hinv obs (by simp [h]))
    have hr := ih (step t a).1 hs.1 (fun obs h => hinv obs (by simp [h]))
    simp only [RenderThread.run, List.mem_append, not_or]
    exact ⟨⟨hs.2.1, hr.1⟩, ⟨hs.2.2.1, hr.2.1⟩, ⟨hs.2.2.2, hr.2.2⟩⟩

/-- C7. The iteration that finds the surface not visible goes straight back to
the loop condition with no call at all; and from any program point outside the
visible branch of the body, under any interleaving of `Stop`, `Pause`,
`Resume` and thread advances in which every observation finds the surface not
visible, `RunToVBlank`, `RenderFrame` and `swapBuffers` are never called. -/
theorem invisible_surface_no_frame (t : RenderThread) (acts : List Action) (obs : Observation)
    (hpc : t.pc.outsideBody = true)
    (hobs : obs.isVisible = false)
    (hinv : ∀ o, Action.advance o ∈ acts → o.isVisible = false) :
    (t.pc = .visibleCheck → step t (.advance obs) = ({ t with pc := .loopCond }, [])) ∧
    RenderCall.RunToVBlank ∉ (RenderThread.run t acts).2 ∧ RenderCall.RenderFrame ∉ (RenderThread.run t acts).2 ∧
      RenderCall.swapBuffers ∉ (RenderThread.run t acts).2 := by
  refine ⟨?_, exec_invisible acts t hpc hinv⟩
  intro h
  simp [step, advance, h, hobs]

/-! ## Render thread: Pause, Resume, Stop -/

theorem step_paused (t : RenderThread) (a : Action) (hp : t.m_bPaused = true)
    (hpc : t.pc ≠ .stepping) (ha : a ≠ .Resume) :
    (step t a).1.m_bPaused = true ∧ (step t a).1.pc ≠ .stepping ∧
      RenderCall.RunToVBlank ∉ (step t a).2 := by
  obtain ⟨pc, paused, rendering⟩ := t
  cases a with
  | advance obs =>
    cases pc <;> cases rendering <;> cases hv : obs.isVisible <;>
      simp_all [step, advance, pacing]
  | _ => simp_all [step, RenderThread.Stop, RenderThread.Pause, RenderThread.Resume]

theorem exec_paused (acts : List Action) :
    ∀ t : RenderThread, t.m_bPaused = true → t.pc ≠ .stepping → Action.Resume ∉ acts →
      RenderCall.RunToVBlank ∉ (RenderThread.run t acts).2 := by
  induction acts with
  | nil => intro t _ _ _; simp [RenderThread.run]
  | cons a acts ih =>
    intro t hp hpc hres
    simp only [List.mem_cons, not_or] at hres
    have hs := step_paused t a hp hpc (Ne.symm hres.1)
    have hr := ih (step t a).1 hs.1 hs.2.1 hres.2
    simp only [RenderThread.run, List.mem_append, not_or]
    exact ⟨hs.2.2, hr⟩

theorem pacing_count_step (audioEnabled : Bool) (elapsed : Int) :
    (pacing audioEnabled elapsed).count RenderCall.RunToVBlank = 0 := by
  unfold pacing
  cases audioEnabled <;> by_cases h : elapsed < 16000000 <;> simp [h]

theorem pacing_count_swap (audioEnabled : Bool) (elapsed : Int) :
    (pacing audioEnabled elapsed).count RenderCall.swapBuffers = 1 := by
  unfold pacing
  cases audioEnabled <;> by_cases h : elapsed < 16000000 <;> simp [h]

theorem pacing_release (audioEnabled : Bool) (elapsed : Int) :
    (pacing audioEnabled elapsed).filter RenderCall.isRelease = [] := by
  unfold pacing
  cases audioEnabled <;> by_cases h : elapsed < 16000000 <;> simp [h, RenderCall.isRelease]

/-- One action once `m_bDoRendering` is false: the flag stays false and the
calls made are paid from what the program point still allows. -/
theorem step_stopped (t : RenderThread) (a : Action) (hr : t.m_bDoRendering = false) :
    (step t a).1.m_bDoRendering = false ∧
      (step t a).2.count RenderCall.RunToVBlank + (step t a).1.pc.stepsLeft ≤ t.pc.stepsLeft ∧
      (step t a).2.count RenderCall.swapBuffers + (step t a).1.pc.swapsLeft ≤ t.pc.swapsLeft := by
  obtain ⟨pc, paused, rendering⟩ := t
  simp only at hr
  subst hr
  cases a with
  | advance obs =>
    cases pc <;> cases paused <;> cases hv : obs.isVisible <;>
      simp [step, advance, hv, Location.stepsLeft, Location.swapsLeft, pacing_count_step,
        pacing_count_swap]
  | _ => simp [step, RenderThread.Stop, RenderThread.Pause, RenderThread.Resume]

theorem exec_stopped_counts (acts : List Action) :
    ∀ t : RenderThread, t.m_bDoRendering = false →
      (RenderThread.run t acts).2.count RenderCall.RunToVBlank ≤ t.pc.stepsLeft ∧
      (RenderThread.run t acts).2.count RenderCall.swapBuffers ≤ t.pc.swapsLeft := by
  induction acts with
  | nil => intro t _; simp [RenderThread.run]
  | cons a acts ih =>
    intro t hr
    have hs := step_stopped t a hr
    have hrec := ih (step t a).1 hs.1
    simp only [RenderThread.run, List.count_append]
    omega

/-- One action once `m_bDoRendering` is false: an advance uses up one of the
remaining advances, a flag write none. -/
theorem step_remaining (t : RenderThread) (a : Action) (hr : t.m_bDoRendering = false) :
    (step t a).1.pc.remaining + (if a.isAdvance then 1 else 0) ≤ t.pc.remaining
      ∨ ((step t a).1.pc = .finished ∧ t.pc = .finished) := by
  obtain ⟨pc, paused, rendering⟩ := t
  simp only at hr
  subst hr
  cases a with
  | advance obs =>
    cases pc <;> cases paused <;> cases hv : obs.isVisible <;>
      simp [step, advance, hv, Location.remaining, Action.isAdvance]
  | _ => simp [step, Action.isAdvance, RenderThread.Stop, RenderThread.Pause, RenderThread.Resume]

theorem step_finished (t : RenderThread) (a : Action) (hpc : t.pc = .finished) :
    (step t a).1.pc = .finished ∧ (step t a).2 = [] := by
  obtain ⟨pc, paused, rendering⟩ := t
  simp only at hpc
  subst hpc
  cases a <;> simp [step, advance, RenderThread.Stop, RenderThread.Pause, RenderThread.Resume]

theorem exec_finished (acts : List Action) :
    ∀ t : RenderThread, t.pc = .finished →
      (RenderThread.run t acts).1.pc = .finished ∧ (RenderThread.run t acts).2 = [] := by
  induction acts with
  | nil => intro t h; simp [RenderThread.run, h]
  | cons a acts ih =>
    intro t h
    have hs := step_finished t a h
    have hrec := ih (step t a).1 hs.1
    simp [RenderThread.run, hs.2, hrec.1, hrec.2]

theorem exec_stopped_exits (acts : List Action) :
    ∀ t : RenderThread, t.m_bDoRendering = false →
      t.pc.remaining ≤ (acts.filter Action.isAdvance).length →
      (RenderThread.run t acts).1.pc = .finished := by
  induction acts with
  | nil =>
    intro t _ hlen
    obtain ⟨pc, paused, rendering⟩ := t
    cases pc <;> simp_all [RenderThread.run, Location.remaining]
  | cons a acts ih =>
    intro t hr hlen
    have hs := step_stopped t a hr
    rcases step_remaining t a hr with hrem | hfin
    · have hlen2 : (step t a).1.pc.remaining ≤ (acts.filter Action.isAdvance).length := by
        cases ha : a.isAdvance <;> simp [List.filter_cons, ha] at hlen hrem <;> omega
      simpa [RenderThread.run] using ih (step t a).1 hs.1 hlen2
    · simpa [RenderThread.run] using (exec_finished acts (step t a).1 hfin.1).1

/-- Once `m_bDoRendering` is false, the release calls of an execution that
starts before the end of `run` and reaches it are the two of the source, once. -/
theorem exec_stopped_release (acts : List Action) :
    ∀ t : RenderThread, t.m_bDoRendering = false → t.pc ≠ .finished →
      (RenderThread.run t acts).1.pc = .finished →
      (RenderThread.run t acts).2.filter RenderCall.isRelease =
        [RenderCall.SafeDeleteArray, RenderCall.glDeleteTextures 3] := by
  induction acts with
  | nil => intro t _ hne hfin; simp [RenderThread.run] at hfin; exact absurd hfin hne
  | cons a acts ih =>
    intro t hr hne hfin
    have hs := step_stopped t a hr
    by_cases hnext : (step t a).1.pc = .finished
    · have hrest := exec_finished acts (step t a).1 hnext
      have hstep : (step t a).2.filter RenderCall.isRelease =
          [RenderCall.SafeDeleteArray, RenderCall.glDeleteTextures 3] := by
        obtain ⟨pc, paused, rendering⟩ := t
        simp only at hr
        subst hr
        cases a with
        | advance obs =>
          cases pc <;> cases paused <;> cases hv : obs.isVisible <;>
            simp_all [step, advance, RenderCall.isRelease]
        | _ => simp_all [step, RenderThread.Stop, RenderThread.Pause, RenderThread.Resume]
      simp [RenderThread.run, List.filter_append, hstep, hrest.2]
    · have hrec := ih (step t a).1 hs.1 hnext (by simpa [RenderThread.run] using hfin)
      have hstep : (step t a).2.filter RenderCall.isRelease = [] := by
        obtain ⟨pc, paused, rendering⟩ := t
        simp only at hr
        subst hr
        cases a with
        | advance obs =>
          cases pc <;> cases paused <;> cases hv : obs.isVisible <;>
            simp_all [step, advance, RenderCall.isRelease, pacing_release]
        | _ => simp_all [step, RenderThread.Stop, RenderThread.Pause, RenderThread.Resume]
      simp [RenderThread.run, List.filter_append, hstep, hrec]

/-- C8. Under any interleaving of `Stop`, `Pause`, `Resume` and thread
advances: after `Pause`, as long as no `Resume` occurs, a thread that has not
already read the flag as clear never calls `RunToVBlank`; after `Stop`, the
next evaluation of the loop condition leaves the loop and makes the two
release calls, at most one `RunToVBlank` and one `swapBuffers` still happen
(the body in progress), and within five thread advances `run` has returned
with the frame buffer and the three textures released exactly once. -/
theorem pause_stop_control (t : RenderThread) (acts : List Action) (obs : Observation) :
    (t.pc ≠ .stepping → Action.Resume ∉ acts →
      RenderCall.RunToVBlank ∉ (RenderThread.run t.Pause acts).2) ∧
    (t.pc = .loopCond →
      step t.Stop (.advance obs) =
        ({ pc := .finished, m_bPaused := t.m_bPaused, m_bDoRendering := false },
          [RenderCall.SafeDeleteArray, RenderCall.glDeleteTextures 3])) ∧
    ((RenderThread.run t.Stop acts).2.count RenderCall.RunToVBlank ≤ 1 ∧
      (RenderThread.run t.Stop acts).2.count RenderCall.swapBuffers ≤ 1) ∧
    (t.pc ≠ .finished → 5 ≤ (acts.filter Action.isAdvance).length →
      (RenderThread.run t.Stop acts).1.pc = .finished ∧
      (RenderThread.run t.Stop acts).2.filter RenderCall.isRelease =
        [RenderCall.SafeDeleteArray, RenderCall.glDeleteTextures 3]) := by
  have hstop : t.Stop.m_bDoRendering = false := rfl
  have hpcs : t.Stop.pc = t.pc := rfl
  refine ⟨?_, ?_, ?_, ?_⟩
  · intro hpc hres
    exact exec_paused acts t.Pause rfl hpc hres
  · intro hpc
    simp [step, advance, RenderThread.Stop, hpc]
  · have h := exec_stopped_counts acts t.Stop hstop
    have h1 : t.Stop.pc.stepsLeft ≤ 1 := by
      rw [hpcs]; cases t.pc <;> simp [Location.stepsLeft]
    have h2 : t.Stop.pc.swapsLeft ≤ 1 := by
      rw [hpcs]; cases t.pc <;> simp [Location.swapsLeft]
    exact ⟨le_trans h.1 h1, le_trans h.2 h2⟩
  · intro hne hlen
    have hrem : t.Stop.pc.remaining ≤ (acts.filter Action.isAdvance).length := by
      rw [hpcs]
      have : t.pc.remaining ≤ 5 := by cases t.pc <;> simp [Location.remaining]
      omega
    have hfin := exec_stopped_exits acts t.Stop hstop hrem
    exact ⟨hfin, exec_stopped_release acts t.Stop hstop (by rw [hpcs]; exact hne) hfin⟩

/-! ## Render thread: instances -/

theorem visible_iteration_budget_witness :
    (RenderThread.run { pc := .visibleCheck, m_bPaused := false, m_bDoRendering := true }
      [.advance shownObs, .advance shownObs, .advance shownObs, .advance shownObs]).2.filter
        RenderCall.isPacing =
      [RenderCall.usleep 9999, RenderCall.timer_restart, RenderCall.swapBuffers] := by
  have h := visible_iteration_budget
    { pc := .visibleCheck, m_bPaused := false, m_bDoRendering := true }
    shownObs shownObs shownObs shownObs rfl rfl (by decide)
  exact (h.1 rfl (by decide)).1

theorem invisible_surface_no_frame_witness :
    RenderCall.RunToVBlank ∉
      (RenderThread.run RenderThread.init [.advance hiddenObs, .advance hiddenObs, .Pause,
        .advance hiddenObs, .Resume, .advance hiddenObs, .advance hiddenObs]).2 ∧
    (RenderThread.run RenderThread.init [.advance hiddenObs, .advance hiddenObs, .Pause,
        .advance hiddenObs, .Resume, .advance hiddenObs, .advance hiddenObs]).1.pc
      = .loopCond := by
  have h := invisible_surface_no_frame RenderThread.init
    [.advance hiddenObs, .advance hiddenObs, .Pause, .advance hiddenObs, .Resume,
      .advance hiddenObs, .advance hiddenObs] hiddenObs rfl rfl
    (by
      intro o ho
      simp only [List.mem_cons, Action.advance.injEq, List.mem_singleton, List.not_mem_nil,
        or_false, reduceCtorEq, false_or, or_self] at ho
      rw [ho]
      rfl)
  exact ⟨h.2.1, by decide⟩

theorem pause_stop_control_witness :
    RenderCall.RunToVBlank ∉
      (RenderThread.run sampleThread.Pause [.advance shownObs, .advance shownObs,
        .advance shownObs, .advance shownObs, .advance shownObs]).2 ∧
    (RenderThread.run sampleThread.Stop [.advance shownObs, .advance shownObs,
        .advance shownObs, .advance shownObs, .advance shownObs]).1.pc = .finished ∧
    (RenderThread.run sampleThread.Stop [.advance shownObs, .advance shownObs,
        .advance shownObs, .advance shownObs, .advance shownObs]).2.filter RenderCall.isRelease =
      [RenderCall.SafeDeleteArray, RenderCall.glDeleteTextures 3] := by
  have h := pause_stop_control sampleThread [.advance shownObs, .advance shownObs,
    .advance shownObs, .advance shownObs, .advance shownObs] shownObs
  exact ⟨h.1 (by decide) (by decide), h.2.2.2 (by decide) (by decide)⟩

end Gearsystem
